import Mathlib

/-!
Shallow embedding of the CHAT-APP server (`src/server.js`), a single-room
socket.io broadcast chat.  The mutable process state consists of the
object `activeUsers` (connection id → session record) and the array
`messageHistory`.  Each `socket.on(...)` handler is embedded as a pure
function from the server state and the event data to the new state
together with the list of outbound actions (emits and forced closes),
in the order the source performs them.

JavaScript objects keyed by socket id are modelled as association lists
`List (String × Session)`; `Object.values` is `List.map Prod.snd`;
property assignment is `setUser` (overwrite in place or append);
`delete` is `removeUser`.  The time-derived fields `Date.now()` and
`new Date().toISOString()` are inputs of the send-message event.
-/

namespace ChatApp

/-- A registry entry: `{ id: socket.id, username, status: 'online' }`
(`server.js` line 56). -/
structure Session where
  id : String
  username : String
  status : String
deriving Repr, DecidableEq

/-- The message object built in the `send_message` handler
(`server.js` lines 83-92). -/
structure Message where
  messageId : String
  chatId : String
  senderId : String
  senderName : String
  content : String
  type : String
  timestamp : String
  status : String
deriving Repr, DecidableEq

/-- The in-memory server state: `activeUsers` and `messageHistory`
(`server.js` lines 38-39). -/
structure ServerState where
  activeUsers : List (String × Session)
  messageHistory : List Message
deriving Repr, DecidableEq

/-- Recipient set of an emitted event: `socket.emit` (one client),
`io.emit` (all connected clients), `socket.broadcast.emit`
(all connected clients except the sender). -/
inductive Recipient where
  | one (sid : String)
  | all
  | allExcept (sid : String)
deriving Repr, DecidableEq

/-- Outbound event payloads of the server. -/
inductive ServerEvent where
  | userRegistered (userId : String) (history : List Message)
  | userJoined (id : String) (username : String)
  | activeUsersEv (users : List Session)
  | newMessage (m : Message)
  | typingStatus (userId : String) (username : Option String) (isTyping : Bool)
  | userLeft (id : String)
  | systemError (msg : String)
deriving Repr, DecidableEq

/-- An outbound action: emit an event to a recipient set, or forcibly
close a connection (`socket.disconnect(true)`). -/
inductive Action where
  | emit (r : Recipient) (e : ServerEvent)
  | close (sid : String)
deriving Repr, DecidableEq

/-- Lookup in the registry: `activeUsers[socket.id]`.  Returns the first
entry with the given key. -/
def getUser : List (String × Session) → String → Option Session
  | [], _ => none
  | p :: rest, sid => if p.1 = sid then some p.2 else getUser rest sid

/-- Assignment `activeUsers[sid] = sess`: overwrite the entry in place if
the key is present (JavaScript keeps the key's insertion position),
otherwise append a fresh entry. -/
def setUser : List (String × Session) → String → Session → List (String × Session)
  | [], sid, sess => [(sid, sess)]
  | p :: rest, sid, sess =>
      if p.1 = sid then (sid, sess) :: rest else p :: setUser rest sid sess

/-- Deletion `delete activeUsers[sid]`. -/
def removeUser : List (String × Session) → String → List (String × Session)
  | [], _ => []
  | p :: rest, sid =>
      if p.1 = sid then removeUser rest sid else p :: removeUser rest sid

/-- Does a client with connection id `c` receive an event sent to the
given recipient set (assuming `c` is connected)? -/
def deliveredTo (c : String) : Recipient → Bool
  | .one sid => c == sid
  | .all => true
  | .allExcept sid => c != sid

/-- The `register_user` handler (`server.js` lines 49-71).  The username
argument is `none` when the client sent no payload; the JavaScript
falsy test `!username` rejects both a missing and an empty string. -/
def handleRegisterUser (st : ServerState) (sid : String) (username : Option String) :
    ServerState × List Action :=
  if username.getD "" = "" then
    (st, [Action.emit (Recipient.one sid) (ServerEvent.systemError "Username cannot be empty."),
          Action.close sid])
  else
    let u := username.getD ""
    let sess : Session := { id := sid, username := u, status := "online" }
    let newReg := setUser st.activeUsers sid sess
    ({ st with activeUsers := newReg },
     [Action.emit (Recipient.one sid) (ServerEvent.userRegistered sid st.messageHistory),
      Action.emit Recipient.all (ServerEvent.userJoined sid u),
      Action.emit Recipient.all (ServerEvent.activeUsersEv (newReg.map Prod.snd))])

/-- The `send_message` handler (`server.js` lines 75-103).  `now` stands
for `Date.now().toString()` and `iso` for `new Date().toISOString()`,
both supplied by the environment at handling time. -/
def handleSendMessage (st : ServerState) (sid : String) (content : String)
    (now : String) (iso : String) : ServerState × List Action :=
  match getUser st.activeUsers sid with
  | none =>
      (st, [Action.emit (Recipient.one sid)
              (ServerEvent.systemError "Authentication failed. Please refresh.")])
  | some sender =>
      let message : Message :=
        { messageId := now, chatId := "group-1", senderId := sender.id,
          senderName := sender.username, content := content, type := "text",
          timestamp := iso, status := "delivered" }
      ({ st with messageHistory := st.messageHistory ++ [message] },
       [Action.emit Recipient.all (ServerEvent.newMessage message),
        Action.emit Recipient.all (ServerEvent.typingStatus sender.id none false)])

/-- The `typing_start` handler (`server.js` lines 106-112). -/
def handleTypingStart (st : ServerState) (sid : String) : ServerState × List Action :=
  match getUser st.activeUsers sid with
  | none => (st, [])
  | some sender =>
      (st, [Action.emit (Recipient.allExcept sid)
              (ServerEvent.typingStatus sender.id (some sender.username) true)])

/-- The `typing_stop` handler (`server.js` lines 114-120). -/
def handleTypingStop (st : ServerState) (sid : String) : ServerState × List Action :=
  match getUser st.activeUsers sid with
  | none => (st, [])
  | some sender =>
      (st, [Action.emit (Recipient.allExcept sid)
              (ServerEvent.typingStatus sender.id (some sender.username) false)])

/-- The `disconnect` handler (`server.js` lines 123-135). -/
def handleDisconnect (st : ServerState) (sid : String) : ServerState × List Action :=
  match getUser st.activeUsers sid with
  | none => (st, [])
  | some du =>
      let newReg := removeUser st.activeUsers sid
      ({ st with activeUsers := newReg },
       [Action.emit Recipient.all (ServerEvent.userLeft du.id),
        Action.emit Recipient.all (ServerEvent.activeUsersEv (newReg.map Prod.snd))])

/-- An inbound event delivered to the router, tagged with the sending
connection's id (and, for `send_message`, the clock readings the
handler takes). -/
inductive ClientEvent where
  | registerUser (sid : String) (username : Option String)
  | sendMessage (sid : String) (content : String) (now : String) (iso : String)
  | typingStart (sid : String)
  | typingStop (sid : String)
  | disconnect (sid : String)
deriving Repr, DecidableEq

/-- Is this event a `register_user` from connection `c`? -/
def ClientEvent.isRegisterOf : ClientEvent → String → Bool
  | .registerUser sid _, c => sid == c
  | _, _ => false

/-- One router dispatch: the single-threaded event loop handles one
inbound event, mutating the state and producing outbound actions. -/
def step (st : ServerState) : ClientEvent → ServerState × List Action
  | .registerUser sid username => handleRegisterUser st sid username
  | .sendMessage sid content now iso => handleSendMessage st sid content now iso
  | .typingStart sid => handleTypingStart st sid
  | .typingStop sid => handleTypingStop st sid
  | .disconnect sid => handleDisconnect st sid

/-- Process a sequence of inbound events, concatenating the outbound
actions in emission order. -/
def run (st : ServerState) : List ClientEvent → ServerState × List Action
  | [] => (st, [])
  | e :: es =>
      let r := step st e
      let r2 := run r.1 es
      (r2.1, r.2 ++ r2.2)

/-- The state at process start: no users, no history. -/
def initialState : ServerState := { activeUsers := [], messageHistory := [] }

/-- Extract the message of a `new_message` broadcast, if any. -/
def msgOf : Action → Option Message
  | .emit _ (.newMessage m) => some m
  | _ => none

/-- The sequence of messages carried by `new_message` broadcasts, in
emission order. -/
def newMessagesOf (acts : List Action) : List Message :=
  acts.filterMap msgOf

/-- Is this action a `user_left` emission? -/
def isUserLeft : Action → Bool
  | .emit _ (.userLeft _) => true
  | _ => false

/-- Registry well-formedness: every entry maps a connection id `k` to a
record whose `id` field is `k`, whose username is non-empty and whose
status is `"online"`, and keys are unique. -/
def WFReg (reg : List (String × Session)) : Prop :=
  (∀ p ∈ reg, p.2.id = p.1 ∧ p.2.username ≠ "" ∧ p.2.status = "online") ∧
  (reg.map Prod.fst).Nodup

/-- Boolean check that each registry entry's `id` field equals its key
(the part of `WFReg` several theorems take as a hypothesis). -/
def idsMatch (reg : List (String × Session)) : Bool :=
  reg.all fun p => p.2.id == p.1

/-- A concrete registered session used to instantiate theorems. -/
def aliceSession : Session := { id := "a", username := "alice", status := "online" }

/-- A second concrete registered session. -/
def bobSession : Session := { id := "b", username := "bob", status := "online" }

/-- A concrete state with two registered users and an empty log. -/
def demoState : ServerState :=
  { activeUsers := [("a", aliceSession), ("b", bobSession)], messageHistory := [] }

/-! ### Association-list lemmas -/

theorem getUser_setUser_self (reg : List (String × Session)) (k : String) (v : Session) :
    getUser (setUser reg k v) k = some v := by
  induction reg with
  | nil => simp [setUser, getUser]
  | cons p rest ih =>
      by_cases h : p.1 = k
      · simp [setUser, h, getUser]
      · simp [setUser, h, getUser, ih]

theorem getUser_setUser_ne (reg : List (String × Session)) (k c : String) (v : Session)
    (h : c ≠ k) : getUser (setUser reg k v) c = getUser reg c := by
  have hkc : ¬k = c := fun hh => h hh.symm
  induction reg with
  | nil => simp [setUser, getUser, hkc]
  | cons p rest ih =>
      by_cases h1 : p.1 = k
      · have hpc : ¬p.1 = c := fun hh => hkc (h1 ▸ hh)
        simp only [setUser, if_pos h1, getUser, if_neg hkc, if_neg hpc]
      · simp only [setUser, if_neg h1]
        by_cases h2 : p.1 = c
        · simp only [getUser, if_pos h2]
        · simp only [getUser, if_neg h2]
          exact ih

theorem getUser_removeUser_self (reg : List (String × Session)) (k : String) :
    getUser (removeUser reg k) k = none := by
  induction reg with
  | nil => simp [removeUser, getUser]
  | cons p rest ih =>
      by_cases h : p.1 = k
      · simp [removeUser, h, ih]
      · simp [removeUser, h, getUser, ih]

theorem getUser_removeUser_ne (reg : List (String × Session)) (k c : String)
    (h : c ≠ k) : getUser (removeUser reg k) c = getUser reg c := by
  induction reg with
  | nil => simp [removeUser]
  | cons p rest ih =>
      by_cases h1 : p.1 = k
      · have hpc : ¬p.1 = c := fun hh => h ((h1 ▸ hh : k = c)).symm
        simp only [removeUser, if_pos h1, getUser, if_neg hpc]
        exact ih
      · simp only [removeUser, if_neg h1]
        by_cases h2 : p.1 = c
        · simp only [getUser, if_pos h2]
        · simp only [getUser, if_neg h2]
          exact ih

theorem getUser_mem (reg : List (String × Session)) (k : String) (v : Session)
    (h : getUser reg k = some v) : (k, v) ∈ reg := by
  induction reg with
  | nil => simp [getUser] at h
  | cons p rest ih =>
      obtain ⟨a, b⟩ := p
      by_cases h1 : a = k
      · simp [getUser, h1] at h
        subst h1
        subst h
        exact List.mem_cons_self _ _
      · simp [getUser, h1] at h
        exact List.mem_cons_of_mem _ (ih h)

theorem mem_setUser_self (reg : List (String × Session)) (k : String) (v : Session) :
    (k, v) ∈ setUser reg k v := by
  induction reg with
  | nil => simp [setUser]
  | cons p rest ih =>
      by_cases h : p.1 = k
      · simp [setUser, h]
      · simp only [setUser, h, if_false]
        exact List.mem_cons_of_mem _ ih

theorem mem_setUser (reg : List (String × Session)) (k : String) (v : Session)
    (p : String × Session) (h : p ∈ setUser reg k v) : p = (k, v) ∨ p ∈ reg := by
  induction reg with
  | nil => simpa [setUser] using h
  | cons q rest ih =>
      by_cases h1 : q.1 = k
      · simp only [setUser, h1, if_true] at h
        rcases List.mem_cons.mp h with h2 | h2
        · exact Or.inl h2
        · exact Or.inr (List.mem_cons_of_mem _ h2)
      · simp only [setUser, h1, if_false] at h
        rcases List.mem_cons.mp h with h2 | h2
        · exact Or.inr (h2 ▸ List.mem_cons_self _ _)
        · rcases ih h2 with h3 | h3
          · exact Or.inl h3
          · exact Or.inr (List.mem_cons_of_mem _ h3)

theorem keys_setUser_nodup (reg : List (String × Session)) (k : String) (v : Session)
    (h : (reg.map Prod.fst).Nodup) : ((setUser reg k v).map Prod.fst).Nodup := by
  induction reg with
  | nil => simp [setUser]
  | cons p rest ih =>
      rw [List.map_cons, List.nodup_cons] at h
      by_cases h1 : p.1 = k
      · subst h1
        simpa [setUser, List.nodup_cons] using h
      · simp only [setUser, h1, if_false, List.map_cons, List.nodup_cons]
        refine ⟨fun hc => ?_, ih h.2⟩
        rcases List.mem_map.mp hc with ⟨q, hq, hq1⟩
        rcases mem_setUser rest k v q hq with h2 | h2
        · exact h1 (by rw [← hq1, h2])
        · exact h.1 (hq1 ▸ List.mem_map_of_mem Prod.fst h2)

theorem removeUser_sublist (reg : List (String × Session)) (k : String) :
    List.Sublist (removeUser reg k) reg := by
  induction reg with
  | nil => simp [removeUser]
  | cons p rest ih =>
      by_cases h : p.1 = k
      · simpa [removeUser, h] using List.Sublist.cons p ih
      · simpa [removeUser, h] using List.Sublist.cons₂ p ih

theorem mem_removeUser (reg : List (String × Session)) (k : String)
    (p : String × Session) (h : p ∈ removeUser reg k) : p ∈ reg :=
  (removeUser_sublist reg k).mem h

theorem key_ne_of_mem_removeUser (reg : List (String × Session)) (k : String)
    (p : String × Session) (h : p ∈ removeUser reg k) : p.1 ≠ k := by
  induction reg with
  | nil => simp [removeUser] at h
  | cons q rest ih =>
      by_cases h1 : q.1 = k
      · exact ih (by simpa [removeUser, h1] using h)
      · rcases List.mem_cons.mp (by simpa [removeUser, h1] using h) with h2 | h2
        · exact h2 ▸ h1
        · exact ih h2

/-! ### Handler-level state lemmas -/

theorem handleSendMessage_activeUsers (st : ServerState) (sid content now iso : String) :
    (handleSendMessage st sid content now iso).1.activeUsers = st.activeUsers := by
  rcases hg : getUser st.activeUsers sid with _ | sender <;>
    simp [handleSendMessage, hg]

theorem handleTypingStart_state (st : ServerState) (sid : String) :
    (handleTypingStart st sid).1 = st := by
  rcases hg : getUser st.activeUsers sid with _ | sender <;>
    simp [handleTypingStart, hg]

theorem handleTypingStop_state (st : ServerState) (sid : String) :
    (handleTypingStop st sid).1 = st := by
  rcases hg : getUser st.activeUsers sid with _ | sender <;>
    simp [handleTypingStop, hg]

/-! ### Claim theorems -/

/-- C1: handling `send_message` from a connection whose id is registered
appends exactly one message to the log, built from the payload content
and the sender's current session (chatId `"group-1"`, type `"text"`,
status `"delivered"`), leaves the registry unchanged, and emits exactly
a `new_message` broadcast to all connected clients (every client `c`,
the sender included, is a recipient) followed by a `typing_status`
broadcast with the sender's id and `isTyping = false` to all. -/
theorem send_message_registered (st : ServerState) (sid content now iso : String)
    (sender : Session) (c : String)
    (h : getUser st.activeUsers sid = some sender) :
    (handleSendMessage st sid content now iso).1.messageHistory
        = st.messageHistory ++
          [{ messageId := now, chatId := "group-1", senderId := sender.id,
             senderName := sender.username, content := content, type := "text",
             timestamp := iso, status := "delivered" }] ∧
    (handleSendMessage st sid content now iso).1.activeUsers = st.activeUsers ∧
    (handleSendMessage st sid content now iso).2
        = [Action.emit Recipient.all (ServerEvent.newMessage
             { messageId := now, chatId := "group-1", senderId := sender.id,
               senderName := sender.username, content := content, type := "text",
               timestamp := iso, status := "delivered" }),
           Action.emit Recipient.all (ServerEvent.typingStatus sender.id none false)] ∧
    deliveredTo c Recipient.all = true := by
  simp [handleSendMessage, h, deliveredTo]

/-- C1 witness: the theorem instantiated at a concrete registered
sender. -/
theorem send_message_registered_witness :
    getUser demoState.activeUsers "a" = some aliceSession ∧
    ((handleSendMessage demoState "a" "hi" "100" "t0").1.messageHistory
        = demoState.messageHistory ++
          [{ messageId := "100", chatId := "group-1", senderId := aliceSession.id,
             senderName := aliceSession.username, content := "hi", type := "text",
             timestamp := "t0", status := "delivered" }] ∧
     (handleSendMessage demoState "a" "hi" "100" "t0").1.activeUsers = demoState.activeUsers ∧
     (handleSendMessage demoState "a" "hi" "100" "t0").2
        = [Action.emit Recipient.all (ServerEvent.newMessage
             { messageId := "100", chatId := "group-1", senderId := aliceSession.id,
               senderName := aliceSession.username, content := "hi", type := "text",
               timestamp := "t0", status := "delivered" }),
           Action.emit Recipient.all (ServerEvent.typingStatus aliceSession.id none false)] ∧
     deliveredTo "b" Recipient.all = true) :=
  ⟨by decide, send_message_registered demoState "a" "hi" "100" "t0" aliceSession "b" (by decide)⟩

/-- C4: handling `send_message` from a connection whose id is not in the
registry emits only a `system_error` to the sender, changes neither the
log nor the registry (the whole state is unchanged), and the single
emitted event is not delivered to any other client. -/
theorem send_message_unregistered (st : ServerState) (sid content now iso : String)
    (c : String) (h : getUser st.activeUsers sid = none) (hc : c ≠ sid) :
    handleSendMessage st sid content now iso
      = (st, [Action.emit (Recipient.one sid)
                (ServerEvent.systemError "Authentication failed. Please refresh.")]) ∧
    deliveredTo c (Recipient.one sid) = false := by
  simp [handleSendMessage, h, deliveredTo, hc]

/-- C4 witness: the theorem instantiated at a fresh unregistered
connection. -/
theorem send_message_unregistered_witness :
    getUser demoState.activeUsers "z" = none ∧ ("a" : String) ≠ "z" ∧
    (handleSendMessage demoState "z" "hi" "100" "t0"
        = (demoState, [Action.emit (Recipient.one "z")
             (ServerEvent.systemError "Authentication failed. Please refresh.")]) ∧
     deliveredTo "a" (Recipient.one "z") = false) :=
  ⟨by decide, by decide,
   send_message_unregistered demoState "z" "hi" "100" "t0" "a" (by decide) (by decide)⟩

/-- C7: handling `register_user` with an empty or missing username
leaves the state unchanged (no session is created) and emits exactly a
`system_error` notice to the sender followed by a forced close of that
connection; in particular no `user_joined` or `active_users` broadcast
occurs. -/
theorem register_user_invalid (st : ServerState) (sid : String) (username : Option String)
    (h : username.getD "" = "") :
    handleRegisterUser st sid username
      = (st, [Action.emit (Recipient.one sid)
                (ServerEvent.systemError "Username cannot be empty."),
              Action.close sid]) := by
  simp [handleRegisterUser, h]

/-- C7 witness: the theorem instantiated at an empty username. -/
theorem register_user_invalid_witness :
    (some "" : Option String).getD "" = "" ∧
    handleRegisterUser demoState "z" (some "")
      = (demoState, [Action.emit (Recipient.one "z")
                       (ServerEvent.systemError "Username cannot be empty."),
                     Action.close "z"]) :=
  ⟨by decide, register_user_invalid demoState "z" (some "") (by decide)⟩

/-- C8: handling `typing_start` or `typing_stop` from a connection whose
id is not in the registry is silently ignored: the state is unchanged
and no action of any kind is produced. -/
theorem typing_unregistered_silent (st : ServerState) (sid : String)
    (h : getUser st.activeUsers sid = none) :
    handleTypingStart st sid = (st, []) ∧ handleTypingStop st sid = (st, []) := by
  simp [handleTypingStart, handleTypingStop, h]

/-- C8 witness: the theorem instantiated at an unregistered
connection. -/
theorem typing_unregistered_silent_witness :
    getUser demoState.activeUsers "z" = none ∧
    (handleTypingStart demoState "z" = (demoState, []) ∧
     handleTypingStop demoState "z" = (demoState, [])) :=
  ⟨by decide, typing_unregistered_silent demoState "z" (by decide)⟩

/-- C2: handling `register_user` with a non-empty username `u` stores
the session `{ id := sid, username := u, status := "online" }` under the
connection's id, leaves the log unchanged, and emits in order:
`user_registered` with the sender's id and the full history to the
sender only (a client `c` receives it iff `c` is the sender),
`user_joined` with the id and username to all, and `active_users`
carrying the snapshot of the updated registry — which contains the new
session — to all. -/
theorem register_user_valid (st : ServerState) (sid u c : String) (hu : u ≠ "") :
    getUser (handleRegisterUser st sid (some u)).1.activeUsers sid
        = some { id := sid, username := u, status := "online" } ∧
    (handleRegisterUser st sid (some u)).1.messageHistory = st.messageHistory ∧
    (handleRegisterUser st sid (some u)).2
        = [Action.emit (Recipient.one sid)
             (ServerEvent.userRegistered sid st.messageHistory),
           Action.emit Recipient.all (ServerEvent.userJoined sid u),
           Action.emit Recipient.all (ServerEvent.activeUsersEv
             ((handleRegisterUser st sid (some u)).1.activeUsers.map Prod.snd))] ∧
    ({ id := sid, username := u, status := "online" } : Session)
        ∈ (handleRegisterUser st sid (some u)).1.activeUsers.map Prod.snd ∧
    (deliveredTo c (Recipient.one sid) = true ↔ c = sid) ∧
    deliveredTo c Recipient.all = true := by
  refine ⟨?_, ?_, ?_, ?_, ?_, ?_⟩
  · simp only [handleRegisterUser, Option.getD_some, if_neg hu]
    exact getUser_setUser_self st.activeUsers sid _
  · simp [handleRegisterUser, hu]
  · simp [handleRegisterUser, hu]
  · simp only [handleRegisterUser, Option.getD_some, if_neg hu]
    exact List.mem_map_of_mem Prod.snd (mem_setUser_self st.activeUsers sid _)
  · simp [deliveredTo]
  · simp [deliveredTo]

/-- C2 witness: the theorem instantiated at a fresh connection
registering a non-empty username. -/
theorem register_user_valid_witness :
    ("carol" : String) ≠ "" ∧
    (getUser (handleRegisterUser demoState "z" (some "carol")).1.activeUsers "z"
        = some { id := "z", username := "carol", status := "online" } ∧
     (handleRegisterUser demoState "z" (some "carol")).1.messageHistory
        = demoState.messageHistory ∧
     (handleRegisterUser demoState "z" (some "carol")).2
        = [Action.emit (Recipient.one "z")
             (ServerEvent.userRegistered "z" demoState.messageHistory),
           Action.emit Recipient.all (ServerEvent.userJoined "z" "carol"),
           Action.emit Recipient.all (ServerEvent.activeUsersEv
             ((handleRegisterUser demoState "z" (some "carol")).1.activeUsers.map Prod.snd))] ∧
     ({ id := "z", username := "carol", status := "online" } : Session)
        ∈ (handleRegisterUser demoState "z" (some "carol")).1.activeUsers.map Prod.snd ∧
     (deliveredTo "a" (Recipient.one "z") = true ↔ ("a" : String) = "z") ∧
     deliveredTo "a" Recipient.all = true) :=
  ⟨by decide, register_user_valid demoState "z" "carol" "a" (by decide)⟩

/-- C6: handling `typing_start` (resp. `typing_stop`) from a registered
connection mutates nothing and emits exactly one `typing_status` event
with the sender's id and username and `isTyping = true` (resp. `false`)
to all connected clients except the sender: the sender is not a
recipient, while any other client `c` is. -/
theorem typing_registered_excludes_sender (st : ServerState) (sid c : String)
    (sender : Session) (h : getUser st.activeUsers sid = some sender)
    (hwf : idsMatch st.activeUsers = true) (hc : c ≠ sid) :
    handleTypingStart st sid
      = (st, [Action.emit (Recipient.allExcept sid)
                (ServerEvent.typingStatus sender.id (some sender.username) true)]) ∧
    handleTypingStop st sid
      = (st, [Action.emit (Recipient.allExcept sid)
                (ServerEvent.typingStatus sender.id (some sender.username) false)]) ∧
    sender.id = sid ∧
    deliveredTo sid (Recipient.allExcept sid) = false ∧
    deliveredTo c (Recipient.allExcept sid) = true := by
  have hmem := getUser_mem _ _ _ h
  have hid : sender.id = sid := by
    have := List.all_eq_true.mp hwf _ hmem
    exact eq_of_beq this
  refine ⟨?_, ?_, hid, ?_, ?_⟩
  · simp [handleTypingStart, h]
  · simp [handleTypingStop, h]
  · simp [deliveredTo]
  · simp [deliveredTo, hc]

/-- C6 witness: the theorem instantiated with a registered sender and a
distinct other client. -/
theorem typing_registered_excludes_sender_witness :
    getUser demoState.activeUsers "a" = some aliceSession ∧
    idsMatch demoState.activeUsers = true ∧ ("b" : String) ≠ "a" ∧
    (handleTypingStart demoState "a"
        = (demoState, [Action.emit (Recipient.allExcept "a")
             (ServerEvent.typingStatus aliceSession.id (some aliceSession.username) true)]) ∧
     handleTypingStop demoState "a"
        = (demoState, [Action.emit (Recipient.allExcept "a")
             (ServerEvent.typingStatus aliceSession.id (some aliceSession.username) false)]) ∧
     aliceSession.id = "a" ∧
     deliveredTo "a" (Recipient.allExcept "a") = false ∧
     deliveredTo "b" (Recipient.allExcept "a") = true) :=
  ⟨by decide, by decide, by decide,
   typing_registered_excludes_sender demoState "a" "b" aliceSession
     (by decide) (by decide) (by decide)⟩

/-- C3: on disconnect of a connection whose id has a session, that
session is removed, exactly one `user_left` event carrying the bare
connection id is broadcast to all together with an `active_users`
snapshot of the remaining registry, in which no session carries the
departed identity; on disconnect of a connection without a session, the
state is unchanged and nothing is emitted. -/
theorem disconnect_cleanup (st : ServerState) (sid : String)
    (hwf : idsMatch st.activeUsers = true) :
    ((getUser st.activeUsers sid).isSome = true →
        handleDisconnect st sid
          = ({ st with activeUsers := removeUser st.activeUsers sid },
             [Action.emit Recipient.all (ServerEvent.userLeft sid),
              Action.emit Recipient.all (ServerEvent.activeUsersEv
                ((removeUser st.activeUsers sid).map Prod.snd))]) ∧
        List.countP isUserLeft (handleDisconnect st sid).2 = 1 ∧
        (((removeUser st.activeUsers sid).map Prod.snd).all fun s => s.id != sid)
          = true) ∧
    (getUser st.activeUsers sid = none → handleDisconnect st sid = (st, [])) := by
  constructor
  · intro hs
    obtain ⟨du, hdu⟩ := Option.isSome_iff_exists.mp hs
    have hmem := getUser_mem _ _ _ hdu
    have hid : du.id = sid := eq_of_beq (List.all_eq_true.mp hwf _ hmem)
    refine ⟨?_, ?_, ?_⟩
    · simp [handleDisconnect, hdu, hid]
    · simp [handleDisconnect, hdu, List.countP_cons, isUserLeft]
    · rw [List.all_eq_true]
      intro s hs2
      rcases List.mem_map.mp hs2 with ⟨p, hp, rfl⟩
      have h1 : p.1 ≠ sid := key_ne_of_mem_removeUser _ _ _ hp
      have h2 : p.2.id = p.1 :=
        eq_of_beq (List.all_eq_true.mp hwf _ (mem_removeUser _ _ _ hp))
      simp [h2, h1]
  · intro hn
    simp [handleDisconnect, hn]

/-- C3 witness: the theorem instantiated at a registered connection,
with the surviving-branch conclusion. -/
theorem disconnect_cleanup_witness :
    idsMatch demoState.activeUsers = true ∧
    (getUser demoState.activeUsers "b").isSome = true ∧
    (handleDisconnect demoState "b"
        = ({ demoState with activeUsers := removeUser demoState.activeUsers "b" },
           [Action.emit Recipient.all (ServerEvent.userLeft "b"),
            Action.emit Recipient.all (ServerEvent.activeUsersEv
              ((removeUser demoState.activeUsers "b").map Prod.snd))]) ∧
     List.countP isUserLeft (handleDisconnect demoState "b").2 = 1 ∧
     (((removeUser demoState.activeUsers "b").map Prod.snd).all fun s => s.id != "b")
       = true) :=
  ⟨by decide, by decide, (disconnect_cleanup demoState "b" (by decide)).1 (by decide)⟩

/-- Each dispatch appends to the log exactly the messages it broadcasts
as `new_message`, in order. -/
theorem step_history (st : ServerState) (e : ClientEvent) :
    (step st e).1.messageHistory = st.messageHistory ++ newMessagesOf (step st e).2 := by
  cases e with
  | registerUser sid u =>
      by_cases hu : u.getD "" = "" <;>
        simp [step, handleRegisterUser, hu, newMessagesOf, msgOf]
  | sendMessage sid content now iso =>
      rcases hg : getUser st.activeUsers sid with _ | sender <;>
        simp [step, handleSendMessage, hg, newMessagesOf, msgOf]
  | typingStart sid =>
      rcases hg : getUser st.activeUsers sid with _ | sender <;>
        simp [step, handleTypingStart, hg, newMessagesOf, msgOf]
  | typingStop sid =>
      rcases hg : getUser st.activeUsers sid with _ | sender <;>
        simp [step, handleTypingStop, hg, newMessagesOf, msgOf]
  | disconnect sid =>
      rcases hg : getUser st.activeUsers sid with _ | du <;>
        simp [step, handleDisconnect, hg, newMessagesOf, msgOf]

/-- C5: over any sequence of inbound events from any starting state, the
final log equals the starting log extended by exactly the messages
carried by the `new_message` broadcasts, in emission order: the
sequence of `new_message` broadcasts (hence the order any single client
observes) coincides with the log's append order. -/
theorem log_broadcast_order (st : ServerState) (es : List ClientEvent) :
    (run st es).1.messageHistory
      = st.messageHistory ++ newMessagesOf (run st es).2 := by
  induction es generalizing st with
  | nil => simp [run, newMessagesOf]
  | cons e es ih =>
      calc (run st (e :: es)).1.messageHistory
          = (run (step st e).1 es).1.messageHistory := by simp [run]
        _ = (step st e).1.messageHistory ++ newMessagesOf (run (step st e).1 es).2 :=
            ih (step st e).1
        _ = st.messageHistory ++
              (newMessagesOf (step st e).2 ++ newMessagesOf (run (step st e).1 es).2) := by
            rw [step_history, List.append_assoc]
        _ = st.messageHistory ++ newMessagesOf (run st (e :: es)).2 := by
            simp [run, newMessagesOf, List.filterMap_append]

/-- C9 counterexample: a second `register_user` on the same connection
does change the username field of the stored session — after
registering as "alice" and re-registering as "bob", the registry holds
username "bob" where it previously held "alice". -/
theorem username_reregistration_counterexample :
    (getUser (step initialState
        (ClientEvent.registerUser "a" (some "alice"))).1.activeUsers "a").map
      Session.username = some "alice" ∧
    (getUser (step (step initialState (ClientEvent.registerUser "a" (some "alice"))).1
        (ClientEvent.registerUser "a" (some "bob"))).1.activeUsers "a").map
      Session.username = some "bob" := by
  decide

/-- C9 (amended): the username stored for a connection is changed only
by another `register_user` event on that same connection: any step on
an event that is not a `register_user` from connection `c` either
preserves `c`'s session verbatim or removes it, so whenever a session
for `c` survives the step its username is unchanged. -/
theorem username_stable_amended (st : ServerState) (e : ClientEvent) (c : String)
    (s s2 : Session) (he : e.isRegisterOf c = false)
    (h1 : getUser st.activeUsers c = some s)
    (h2 : getUser (step st e).1.activeUsers c = some s2) :
    s2.username = s.username := by
  suffices hss : s2 = s by rw [hss]
  cases e with
  | registerUser sid u =>
      have hne : c ≠ sid := by
        intro hh
        subst hh
        simp [ClientEvent.isRegisterOf] at he
      by_cases hu : u.getD "" = ""
      · rw [show (step st (ClientEvent.registerUser sid u)).1 = st by
            simp [step, handleRegisterUser, hu]] at h2
        exact (Option.some.inj (h1.symm.trans h2)).symm
      · rw [show (step st (ClientEvent.registerUser sid u)).1.activeUsers
              = setUser st.activeUsers sid
                  { id := sid, username := u.getD "", status := "online" } by
            simp [step, handleRegisterUser, hu]] at h2
        rw [getUser_setUser_ne st.activeUsers sid c _ hne] at h2
        exact (Option.some.inj (h1.symm.trans h2)).symm
  | sendMessage sid content now iso =>
      rw [show (step st (ClientEvent.sendMessage sid content now iso)).1.activeUsers
            = st.activeUsers from handleSendMessage_activeUsers st sid content now iso] at h2
      exact (Option.some.inj (h1.symm.trans h2)).symm
  | typingStart sid =>
      rw [show (step st (ClientEvent.typingStart sid)).1 = st from
            handleTypingStart_state st sid] at h2
      exact (Option.some.inj (h1.symm.trans h2)).symm
  | typingStop sid =>
      rw [show (step st (ClientEvent.typingStop sid)).1 = st from
            handleTypingStop_state st sid] at h2
      exact (Option.some.inj (h1.symm.trans h2)).symm
  | disconnect sid =>
      rcases hg : getUser st.activeUsers sid with _ | du
      · rw [show (step st (ClientEvent.disconnect sid)).1 = st by
            simp [step, handleDisconnect, hg]] at h2
        exact (Option.some.inj (h1.symm.trans h2)).symm
      · rw [show (step st (ClientEvent.disconnect sid)).1.activeUsers
              = removeUser st.activeUsers sid by
            simp [step, handleDisconnect, hg]] at h2
        by_cases hcs : c = sid
        · subst hcs
          rw [getUser_removeUser_self] at h2
          exact absurd h2 (by simp)
        · rw [getUser_removeUser_ne st.activeUsers sid c hcs] at h2
          exact (Option.some.inj (h1.symm.trans h2)).symm

/-- C9 witness: the amended theorem instantiated at a typing event that
leaves alice's session in place. -/
theorem username_stable_amended_witness :
    (ClientEvent.typingStart "a").isRegisterOf "a" = false ∧
    getUser demoState.activeUsers "a" = some aliceSession ∧
    getUser (step demoState (ClientEvent.typingStart "a")).1.activeUsers "a"
      = some aliceSession ∧
    aliceSession.username = aliceSession.username :=
  ⟨by decide, by decide, by decide,
   username_stable_amended demoState (ClientEvent.typingStart "a") "a"
     aliceSession aliceSession (by decide) (by decide) (by decide)⟩

/-- Registering a session with a non-empty username preserves registry
well-formedness. -/
theorem WFReg_setUser (reg : List (String × Session)) (sid u : String) (hu : u ≠ "")
    (h : WFReg reg) :
    WFReg (setUser reg sid { id := sid, username := u, status := "online" }) := by
  refine ⟨?_, keys_setUser_nodup reg sid _ h.2⟩
  intro p hp
  rcases mem_setUser reg sid _ p hp with h2 | h2
  · subst h2
    exact ⟨rfl, hu, rfl⟩
  · exact h.1 p h2

/-- Removing a session preserves registry well-formedness. -/
theorem WFReg_removeUser (reg : List (String × Session)) (sid : String) (h : WFReg reg) :
    WFReg (removeUser reg sid) := by
  refine ⟨fun p hp => h.1 p (mem_removeUser reg sid p hp), ?_⟩
  exact List.Nodup.sublist ((removeUser_sublist reg sid).map Prod.fst) h.2

/-- A single dispatch preserves registry well-formedness, and every
`active_users` snapshot it emits is the value sequence of its
post-state registry. -/
theorem step_WF (st : ServerState) (e : ClientEvent) (h : WFReg st.activeUsers) :
    WFReg (step st e).1.activeUsers ∧
    ∀ users, (∃ r, Action.emit r (ServerEvent.activeUsersEv users) ∈ (step st e).2) →
      users = (step st e).1.activeUsers.map Prod.snd := by
  cases e with
  | registerUser sid u =>
      by_cases hu : u.getD "" = ""
      · refine ⟨by simpa [step, handleRegisterUser, hu] using h, ?_⟩
        rintro users ⟨r, hr⟩
        simp [step, handleRegisterUser, hu] at hr
      · constructor
        · simp only [step, handleRegisterUser, if_neg hu]
          exact WFReg_setUser st.activeUsers sid (u.getD "") hu h
        · rintro users ⟨r, hr⟩
          simp [step, handleRegisterUser, hu] at hr ⊢
          exact hr.2
  | sendMessage sid content now iso =>
      rcases hg : getUser st.activeUsers sid with _ | sender
      · refine ⟨by simpa [step, handleSendMessage, hg] using h, ?_⟩
        rintro users ⟨r, hr⟩
        simp [step, handleSendMessage, hg] at hr
      · refine ⟨by simpa [step, handleSendMessage, hg] using h, ?_⟩
        rintro users ⟨r, hr⟩
        simp [step, handleSendMessage, hg] at hr
  | typingStart sid =>
      rcases hg : getUser st.activeUsers sid with _ | sender
      · refine ⟨by simpa [step, handleTypingStart, hg] using h, ?_⟩
        rintro users ⟨r, hr⟩
        simp [step, handleTypingStart, hg] at hr
      · refine ⟨by simpa [step, handleTypingStart, hg] using h, ?_⟩
        rintro users ⟨r, hr⟩
        simp [step, handleTypingStart, hg] at hr
  | typingStop sid =>
      rcases hg : getUser st.activeUsers sid with _ | sender
      · refine ⟨by simpa [step, handleTypingStop, hg] using h, ?_⟩
        rintro users ⟨r, hr⟩
        simp [step, handleTypingStop, hg] at hr
      · refine ⟨by simpa [step, handleTypingStop, hg] using h, ?_⟩
        rintro users ⟨r, hr⟩
        simp [step, handleTypingStop, hg] at hr
  | disconnect sid =>
      rcases hg : getUser st.activeUsers sid with _ | du
      · refine ⟨by simpa [step, handleDisconnect, hg] using h, ?_⟩
        rintro users ⟨r, hr⟩
        simp [step, handleDisconnect, hg] at hr
      · constructor
        · simp only [step, handleDisconnect, hg]
          exact WFReg_removeUser st.activeUsers sid h
        · rintro users ⟨r, hr⟩
          simp [step, handleDisconnect, hg] at hr ⊢
          exact hr.2

/-- Auxiliary induction for C10: from a well-formed state, every state
along a run is well-formed, and every emitted `active_users` snapshot
is the value sequence of some well-formed registry. -/
theorem run_WF (st : ServerState) (es : List ClientEvent) (h : WFReg st.activeUsers) :
    WFReg (run st es).1.activeUsers ∧
    ∀ users, (∃ r, Action.emit r (ServerEvent.activeUsersEv users) ∈ (run st es).2) →
      ∃ reg, WFReg reg ∧ users = reg.map Prod.snd := by
  induction es generalizing st with
  | nil =>
      refine ⟨by simpa [run] using h, ?_⟩
      rintro users ⟨r, hr⟩
      simp [run] at hr
  | cons e es ih =>
      obtain ⟨hw1, hs1⟩ := step_WF st e h
      obtain ⟨hw2, hs2⟩ := ih (step st e).1 hw1
      refine ⟨by simpa [run] using hw2, ?_⟩
      rintro users ⟨r, hr⟩
      rw [show (run st (e :: es)).2 = (step st e).2 ++ (run (step st e).1 es).2 by
            simp [run]] at hr
      rcases List.mem_append.mp hr with hr | hr
      · exact ⟨(step st e).1.activeUsers, hw1, hs1 users ⟨r, hr⟩⟩
      · exact hs2 users ⟨r, hr⟩

/-- C10: in every state reachable from the initial state by any
sequence of inbound events, the registry is well-formed — each entry's
record has `id` equal to its key, a non-empty username and status
`"online"`, and keys are unique, so there is at most one session per
connection identity — and every `active_users` snapshot broadcast along
the way is the value sequence of such a well-formed registry. -/
theorem registry_invariant (es : List ClientEvent) :
    WFReg (run initialState es).1.activeUsers ∧
    ∀ users, (∃ r, Action.emit r (ServerEvent.activeUsersEv users) ∈ (run initialState es).2) →
      ∃ reg, WFReg reg ∧ users = reg.map Prod.snd :=
  run_WF initialState es ⟨by simp [initialState], by simp [initialState]⟩

/-- C10 witness: the invariant evaluated on a one-event run, with the
snapshot clause instantiated at the emitted snapshot. -/
theorem registry_invariant_witness :
    WFReg (run initialState [ClientEvent.registerUser "a" (some "alice")]).1.activeUsers ∧
    (∃ reg, WFReg reg ∧
      [({ id := "a", username := "alice", status := "online" } : Session)]
        = reg.map Prod.snd) :=
  ⟨(registry_invariant [ClientEvent.registerUser "a" (some "alice")]).1,
   (registry_invariant [ClientEvent.registerUser "a" (some "alice")]).2
     [{ id := "a", username := "alice", status := "online" }]
     ⟨Recipient.all, by decide⟩⟩

end ChatApp
